import Mathlib

/-!
# ContentBlast — formal model of the account ledger, session manager and
# repurposing gateway

A shallow embedding of `src/app/auth.py` and the response-normalization step
of `src/app/ai_engine.py`.  Python dicts are modelled as association lists
(first occurrence wins, insertion order preserved), Python `int` as `Int`
(`Nat` for times), and the file-backed store as explicit state passing: every
operation takes the store(s) it loads and returns the store(s) it saves.
-/

namespace ContentBlast

/-! ## Dictionary model (Python `dict` with string keys) -/

/-- `d[k]` lookup: first binding for `k`, if any. -/
def dget {α : Type} : List (String × α) → String → Option α
  | [], _ => none
  | (k', v) :: rest, k => if k' = k then some v else dget rest k

/-- `d[k] = v`: replace the first binding for `k` in place, or append a new
binding at the end (Python dicts preserve insertion order). -/
def dset {α : Type} : List (String × α) → String → α → List (String × α)
  | [], k, v => [(k, v)]
  | (k', v') :: rest, k, v =>
      if k' = k then (k, v) :: rest else (k', v') :: dset rest k v

/-- `del d[k]`: remove the binding(s) for `k`. -/
def ddel {α : Type} (d : List (String × α)) (k : String) : List (String × α) :=
  d.filter (fun p => p.1 ≠ k)

/-! ## SHA-256 (`hashlib.sha256`), over `Nat` with explicit wrapping

`auth.hash_password` is `hashlib.sha256((password + salt).encode()).hexdigest()`
with the fixed salt `"contentblast_salt_2024"`.  We embed SHA-256 (FIPS 180-4)
over `Nat` with explicit reduction modulo `2^32`, and the hex digest as a
`String`, so concrete hashes evaluate in the kernel. -/

/-- Truncate to a 32-bit word. -/
def w32 (n : Nat) : Nat := n % 4294967296

/-- 32-bit right rotation. -/
def rotr (n x : Nat) : Nat := w32 ((x >>> n) ||| (x <<< (32 - n)))

/-- 32-bit complement. -/
def wnot (x : Nat) : Nat := 4294967295 ^^^ x

def bigSigma0 (x : Nat) : Nat := rotr 2 x ^^^ rotr 13 x ^^^ rotr 22 x
def bigSigma1 (x : Nat) : Nat := rotr 6 x ^^^ rotr 11 x ^^^ rotr 25 x
def smallSigma0 (x : Nat) : Nat := rotr 7 x ^^^ rotr 18 x ^^^ (x >>> 3)
def smallSigma1 (x : Nat) : Nat := rotr 17 x ^^^ rotr 19 x ^^^ (x >>> 10)

/-- The 64 SHA-256 round constants (FIPS 180-4 §4.2.2), in decimal. -/
def shaK : List Nat :=
  [1116352408, 1899447441, 3049323471, 3921009573, 961987163,
   1508970993, 2453635748, 2870763221, 3624381080, 310598401,
   607225278, 1426881987, 1925078388, 2162078206, 2614888103,
   3248222580, 3835390401, 4022224774, 264347078, 604807628,
   770255983, 1249150122, 1555081692, 1996064986, 2554220882,
   2821834349, 2952996808, 3210313671, 3336571891, 3584528711,
   113926993, 338241895, 666307205, 773529912, 1294757372,
   1396182291, 1695183700, 1986661051, 2177026350, 2456956037,
   2730485921, 2820302411, 3259730800, 3345764771, 3516065817,
   3600352804, 4094571909, 275423344, 430227734, 506948616,
   659060556, 883997877, 958139571, 1322822218, 1537002063,
   1747873779, 1955562222, 2024104815, 2227730452, 2361852424,
   2428436474, 2756734187, 3204031479, 3329325298]

/-- The initial SHA-256 hash state (FIPS 180-4 §5.3.3), in decimal. -/
def shaH0 : List Nat :=
  [1779033703, 3144134277, 1013904242, 2773480762,
   1359893119, 2600822924, 528734635, 1541459225]

/-- Big-endian byte decomposition (`k` bytes). -/
def toBytesBE (k n : Nat) : List Nat :=
  (List.range k).map (fun i => (n >>> (8 * (k - 1 - i))) % 256)

/-- SHA-256 padding: `0x80`, zeros, then the 64-bit big-endian bit length. -/
def padMsg (m : List Nat) : List Nat :=
  let padZeros := (64 - (m.length + 9) % 64) % 64
  m ++ [0x80] ++ List.replicate padZeros 0 ++ toBytesBE 8 (8 * m.length)

/-- Pack bytes into big-endian 32-bit words. -/
def bytesToWords : List Nat → List Nat
  | a :: b :: c :: d :: rest =>
      ((a <<< 24) ||| (b <<< 16) ||| (c <<< 8) ||| d) :: bytesToWords rest
  | _ => []

/-- Next word of the message schedule, from the words so far. -/
def nextSchedWord (w : List Nat) : Nat :=
  let t := w.length
  w32 (smallSigma1 (w.getD (t - 2) 0) + w.getD (t - 7) 0 +
       smallSigma0 (w.getD (t - 15) 0) + w.getD (t - 16) 0)

/-- Extend the message schedule by `n` words. -/
def extendSched : Nat → List Nat → List Nat
  | 0, w => w
  | n + 1, w => extendSched n (w ++ [nextSchedWord w])

/-- One SHA-256 round on the 8-word working state. -/
def shaRound (st : List Nat) (kw : Nat × Nat) : List Nat :=
  match st with
  | [a, b, c, d, e, f, g, h] =>
      let ch := (e &&& f) ^^^ (wnot e &&& g)
      let maj := (a &&& b) ^^^ (a &&& c) ^^^ (b &&& c)
      let t1 := w32 (h + bigSigma1 e + ch + kw.1 + kw.2)
      let t2 := w32 (bigSigma0 a + maj)
      [w32 (t1 + t2), a, b, c, w32 (d + t1), e, f, g]
  | st => st

/-- Compress one 16-word block into the hash state. -/
def shaCompress (h : List Nat) (block : List Nat) : List Nat :=
  let w := extendSched 48 block
  let st := (shaK.zip w).foldl shaRound h
  List.zipWith (fun x y => w32 (x + y)) h st

/-- Fold the word stream through the compression function, 16 words at a
time (the padded message is always a whole number of blocks). -/
def shaBlocks (h : List Nat) (acc : List Nat) : List Nat → List Nat
  | [] => h
  | w :: rest =>
      if acc.length = 15 then shaBlocks (shaCompress h (acc ++ [w])) [] rest
      else shaBlocks h (acc ++ [w]) rest

/-- Lowercase hex digit. -/
def hexDigit (d : Nat) : Char :=
  if d < 10 then Char.ofNat (48 + d) else Char.ofNat (87 + d)

/-- 8-hex-digit rendering of a 32-bit word. -/
def wordToHex (n : Nat) : List Char :=
  (List.range 8).map (fun i => hexDigit ((n >>> (4 * (7 - i))) % 16))

/-- UTF-8 bytes of an ASCII string (all strings hashed here are ASCII, where
UTF-8 coincides with the code points). -/
def strBytes (s : String) : List Nat := s.toList.map Char.toNat

/-- `hashlib.sha256(bytes).hexdigest()`. -/
def sha256Hex (s : String) : String :=
  let h := shaBlocks shaH0 [] (bytesToWords (padMsg (strBytes s)))
  ⟨(h.map wordToHex).flatten⟩

/-- `auth.hash_password`: SHA-256 of the password concatenated with the fixed
salt, as a lowercase hex digest. -/
def hash_password (password : String) : String :=
  sha256Hex (password ++ "contentblast_salt_2024")

/-! ## Python string primitives

Python strings are sequences of code points, so `String.data : List Char` is
the faithful carrier; the primitives below are defined over it (they also
evaluate in the kernel, unlike the byte-position loops of core `String`).
All inputs exercised here are ASCII, where `Char.toLower` coincides with
`str.lower` and `Char.isWhitespace` covers `str.strip`'s default set. -/

/-- `str.strip()` on a char list: drop whitespace from both ends. -/
def listStrip (l : List Char) : List Char :=
  ((l.dropWhile Char.isWhitespace).reverse.dropWhile Char.isWhitespace).reverse

/-- `str.strip()`. -/
def pyStrip (s : String) : String := ⟨listStrip s.data⟩

/-- `str.lower()`. -/
def pyLower (s : String) : String := ⟨s.data.map Char.toLower⟩

/-- `email.lower().strip()` — the email normalization of `auth.py`. -/
def normEmail (s : String) : String := pyStrip (pyLower s)

/-- `c in s` for a single character. -/
def pyContains (s : String) (c : Char) : Bool := s.data.contains c

/-- `len(s)` (code points). -/
def pyLen (s : String) : Nat := s.data.length

/-- `s.split("@")[0]`: the prefix before the first `@`. -/
def localPart (s : String) : String := ⟨s.data.takeWhile (· ≠ '@')⟩

/-! ## Account ledger and session manager (`src/app/auth.py`)

Timestamps are abstract `Nat` seconds (`datetime.now()` is passed in as
`now`); the random `secrets.token_urlsafe(32)` is passed in as `token`.
Each operation takes and returns the store(s) it loads and saves. -/

/-- A user record, as stored in `data/users.json`. -/
structure UserRec where
  email : String
  password : String
  name : String
  plan : String
  repurposes_used : Int
  repurposes_limit : Int
  created_at : Nat
  last_login : Option Nat
deriving DecidableEq, Repr

/-- A session record, as stored in `data/sessions.json`. -/
structure SessionRec where
  email : String
  created_at : Nat
  expires_at : Nat
deriving DecidableEq, Repr

abbrev Users := List (String × UserRec)
abbrev Sessions := List (String × SessionRec)

/-- Outcome dict of `AuthSystem.register`. -/
structure RegisterResult where
  success : Bool
  error : Option String
  message : Option String
deriving DecidableEq, Repr

/-- The `user` sub-dict returned by a successful `AuthSystem.login`. -/
structure UserPub where
  email : String
  name : String
  plan : String
  repurposes_used : Int
  repurposes_limit : Int
deriving DecidableEq, Repr

/-- Outcome dict of `AuthSystem.login`. -/
structure LoginResult where
  success : Bool
  error : Option String
  session_token : Option String
  user : Option UserPub
deriving DecidableEq, Repr

/-- The user view returned by `AuthSystem.get_user_from_session`. -/
structure UserView where
  email : String
  name : String
  plan : String
  repurposes_used : Int
  repurposes_limit : Int
  repurposes_remaining : Int
deriving DecidableEq, Repr

/-- Outcome dict of `AuthSystem.use_repurpose`. -/
structure UseResult where
  success : Bool
  error : Option String
  repurposes_used : Option Int
  repurposes_remaining : Option Int
deriving DecidableEq, Repr

/-- Outcome dict of `AuthSystem.upgrade_plan`. -/
structure UpgradeResult where
  success : Bool
  error : Option String
  plan : Option String
deriving DecidableEq, Repr

/-- `AuthSystem.FREE_REPURPOSES`. -/
def FREE_REPURPOSES : Int := 5
/-- `AuthSystem.STARTER_REPURPOSES`. -/
def STARTER_REPURPOSES : Int := 50
/-- `AuthSystem.PRO_REPURPOSES`. -/
def PRO_REPURPOSES : Int := 200

/-- `timedelta(days=7)` in seconds. -/
def sevenDays : Nat := 7 * 24 * 60 * 60

/-- `AuthSystem.register`.  Normalizes the email with `lower().strip()`,
validates it and the password length, rejects duplicates, and stores the new
record.  `email.split("@")[0]` — the prefix before the first `@` — is the
default display name. -/
def register (users : Users) (email password name : String) (now : Nat) :
    RegisterResult × Users :=
  if normEmail email = "" ∨ ¬ pyContains (normEmail email) '@' then
    (⟨false, some "Invalid email address", none⟩, users)
  else if pyLen password < 6 then
    (⟨false, some "Password must be at least 6 characters", none⟩, users)
  else
    match dget users (normEmail email) with
    | some _ => (⟨false, some "Email already registered", none⟩, users)
    | none =>
        (⟨true, none, some "Account created successfully"⟩,
         dset users (normEmail email)
           { email := normEmail email
             password := hash_password password
             name := if name = "" then localPart (normEmail email) else name
             plan := "free"
             repurposes_used := 0
             repurposes_limit := FREE_REPURPOSES
             created_at := now
             last_login := none })

/-- `AuthSystem.login`.  Normalizes the email only; the generic error is the
same for an unknown email and a wrong password.  On success it records
`last_login`, stores a session with a 7-day expiry under `token`, and returns
the public user fields. -/
def login (users : Users) (sessions : Sessions) (email password : String)
    (now : Nat) (token : String) : LoginResult × Users × Sessions :=
  match dget users (normEmail email) with
  | none => (⟨false, some "Invalid email or password", none, none⟩, users, sessions)
  | some u =>
      if u.password ≠ hash_password password then
        (⟨false, some "Invalid email or password", none, none⟩, users, sessions)
      else
        (⟨true, none, some token,
          some ⟨normEmail email, u.name, u.plan, u.repurposes_used,
                u.repurposes_limit⟩⟩,
         dset users (normEmail email) { u with last_login := some now },
         dset sessions token ⟨normEmail email, now, now + sevenDays⟩)

/-- `AuthSystem.get_user_from_session`.  Empty token resolves to nothing;
a token whose `expires_at` is strictly before `now` is deleted (lazy expiry);
otherwise the live user record is re-read and projected. -/
def get_user_from_session (sessions : Sessions) (users : Users)
    (session_token : String) (now : Nat) : Option UserView × Sessions :=
  if session_token = "" then (none, sessions)
  else
    match dget sessions session_token with
    | none => (none, sessions)
    | some s =>
        if s.expires_at < now then (none, ddel sessions session_token)
        else
          match dget users s.email with
          | none => (none, sessions)
          | some u =>
              (some ⟨s.email, u.name, u.plan, u.repurposes_used,
                     u.repurposes_limit,
                     if u.repurposes_limit > 0 then
                       u.repurposes_limit - u.repurposes_used
                     else 999⟩,
               sessions)

/-- `AuthSystem.use_repurpose`.  The quota gate: fails on an unknown email,
fails when `repurposes_limit > 0` and `repurposes_used ≥ repurposes_limit`,
otherwise increments the counter and reports the new remaining count. -/
def use_repurpose (users : Users) (email : String) : UseResult × Users :=
  match dget users email with
  | none => (⟨false, some "User not found", none, none⟩, users)
  | some u =>
      if u.repurposes_limit > 0 ∧ u.repurposes_used ≥ u.repurposes_limit then
        (⟨false, some "Repurpose limit reached. Please upgrade!", none, none⟩,
         users)
      else
        let u' := { u with repurposes_used := u.repurposes_used + 1 }
        (⟨true, none, some u'.repurposes_used,
          some (if u'.repurposes_limit > 0 then
                  u'.repurposes_limit - u'.repurposes_used
                else 999)⟩,
         dset users email u')

/-- `AuthSystem.logout`: idempotent session removal. -/
def logout (sessions : Sessions) (session_token : String) :
    Bool × Sessions :=
  (true, ddel sessions session_token)

/-- The `limits` catalog inside `AuthSystem.upgrade_plan`. -/
def planLimit (plan : String) : Option Int :=
  if plan = "free" then some FREE_REPURPOSES
  else if plan = "starter" then some STARTER_REPURPOSES
  else if plan = "pro" then some PRO_REPURPOSES
  else if plan = "unlimited" then some (-1)
  else none

/-- `AuthSystem.upgrade_plan`.  Checks the account first, then the plan id;
on success sets the plan, resets the limit from the catalog, and zeroes the
used counter. -/
def upgrade_plan (users : Users) (email plan : String) :
    UpgradeResult × Users :=
  match dget users email with
  | none => (⟨false, some "User not found", none⟩, users)
  | some u =>
      match planLimit plan with
      | none => (⟨false, some "Invalid plan", none⟩, users)
      | some lim =>
          (⟨true, none, some plan⟩,
           dset users email
             { u with plan := plan, repurposes_limit := lim,
                      repurposes_used := 0 })

/-- The user store after `k` consecutive `use_repurpose` calls for `email`. -/
def iterUse (users : Users) (email : String) : Nat → Users
  | 0 => users
  | k + 1 => (use_repurpose (iterUse users email k) email).2

/-! ## The quota invariant -/

/-- The spec's record invariant: `repurposes_used ≤ repurposes_limit` whenever
`repurposes_limit > 0`. -/
def Inv (u : UserRec) : Prop :=
  0 < u.repurposes_limit → u.repurposes_used ≤ u.repurposes_limit

/-- The invariant, over every record of the user store. -/
def StoreInv (users : Users) : Prop :=
  ∀ e u, dget users e = some u → Inv u

/-! ## Repurposing gateway response normalization (`src/app/ai_engine.py`)

`ContentRepurposer.repurpose` post-processes the raw backend reply
(`result_text`, lines 79–88): an initial `strip()`, then — if the text starts
with a fence — Python's `"\n".join(lines[1:-1])` when the last line is a bare
fence (`"\n".join(lines[1:])` otherwise), then stripping a leading `json`
tag, then a trailing fence.  We model the text as `List Char` with Python's
`str.split("\n")` / `"\n".join` semantics. -/

def fence3 : List Char := ['`', '`', '`']
def jsonTag : List Char := ['j', 's', 'o', 'n']

/-- `s.split("\n")`: separators kept as boundaries, empties preserved
(`"".split("\n") = [""]`). -/
def splitNL : List Char → List (List Char)
  | [] => [[]]
  | c :: rest =>
      if c = '\n' then [] :: splitNL rest
      else
        match splitNL rest with
        | [] => [[c]]
        | h :: t => (c :: h) :: t

/-- `"\n".join(ls)`. -/
def joinNL : List (List Char) → List Char
  | [] => []
  | [x] => x
  | x :: y :: rest => x ++ '\n' :: joinNL (y :: rest)

/-- The fenced-block stripping step (`if result_text.startswith("```")`). -/
def fenceStep (s : List Char) : List Char :=
  if fence3.isPrefixOf s then
    if (splitNL s).getLast? = some fence3 then
      joinNL ((splitNL s).drop 1).dropLast
    else joinNL ((splitNL s).drop 1)
  else s

/-- The language-tag stripping step (`if result_text.startswith("json")`). -/
def jsonStep (s : List Char) : List Char :=
  if jsonTag.isPrefixOf s then listStrip (s.drop 4) else s

/-- The trailing-fence stripping step (`if result_text.endswith("```")`). -/
def trailStep (s : List Char) : List Char :=
  if fence3.isSuffixOf s then listStrip (s.take (s.length - 3)) else s

/-- The whole normalization applied to the raw backend reply. -/
def cleanResponse (raw : List Char) : List Char :=
  trailStep (jsonStep (fenceStep (listStrip raw)))

def fenceJson : List Char := ['`', '`', '`', 'j', 's', 'o', 'n']

/-- Wrap a payload in a fenced code block with a leading `json` tag:
`"```json\n" + p + "\n```"`. -/
def wrapFence (p : List Char) : List Char :=
  (fenceJson ++ ['\n']) ++ p ++ ('\n' :: fence3)

/-! ## Concrete stores for witnesses and counterexamples -/

/-- A concrete free-tier user for witness instantiations. -/
def sampleUser : UserRec :=
  { email := "a@b.com", password := "pw", name := "Ana", plan := "free"
    repurposes_used := 0, repurposes_limit := 5, created_at := 0
    last_login := none }

def sampleUsers : Users := [("a@b.com", sampleUser)]

/-- A record whose stored credential is not any real hash, for the C6
witness. -/
def oddUser : UserRec :=
  { email := "a@b.com", password := "nothash", name := "Ana", plan := "free"
    repurposes_used := 0, repurposes_limit := 5, created_at := 0
    last_login := none }

def oddUsers : Users := [("a@b.com", oddUser)]

/-- A stored session expiring at time 100, for the C4 theorems. -/
def sampleSessions : Sessions := [("tok1", ⟨"a@b.com", 0, 100⟩)]

/-- The store after `Register("a@b.com", "secret1", "Ana")` at time 10. -/
def usersR : Users := (register [] "a@b.com" "secret1" "Ana" 10).2

/-- The store after the follow-up `Login("A@B.COM ", "secret1")` at time 20. -/
def usersL : Users := (login usersR [] "A@B.COM " "secret1" 20 "tok1").2.1

/-! ## Dictionary lemmas -/

theorem dget_dset_self {α : Type} (d : List (String × α)) (k : String) (v : α) :
    dget (dset d k v) k = some v := by
  induction d with
  | nil => simp [dget, dset]
  | cons p rest ih =>
      obtain ⟨k', v'⟩ := p
      by_cases h : k' = k <;> simp [dget, dset, h, ih]

theorem dget_dset_ne {α : Type} (d : List (String × α)) (k k' : String) (v : α)
    (h : k' ≠ k) : dget (dset d k v) k' = dget d k' := by
  induction d with
  | nil => simp [dget, dset, Ne.symm h]
  | cons p rest ih =>
      obtain ⟨k₀, v₀⟩ := p
      by_cases h₀ : k₀ = k
      · subst h₀
        simp [dget, dset, Ne.symm h]
      · simp [dget, dset, h₀, ih]

theorem dget_ddel_self {α : Type} (d : List (String × α)) (k : String) :
    dget (ddel d k) k = none := by
  induction d with
  | nil => simp [dget, ddel]
  | cons p rest ih =>
      obtain ⟨k', v'⟩ := p
      by_cases h : k' = k
      · simpa [ddel, h] using ih
      · simpa [ddel, dget, h] using ih

/-! ## Behaviour of `use_repurpose` under iteration -/

theorem use_repurpose_of_absent {users : Users} {email : String}
    (h : dget users email = none) :
    use_repurpose users email = (⟨false, some "User not found", none, none⟩, users) := by
  simp [use_repurpose, h]

theorem use_repurpose_of_quota {users : Users} {email : String} {u : UserRec}
    (h : dget users email = some u) (hl : 0 < u.repurposes_limit)
    (hge : u.repurposes_limit ≤ u.repurposes_used) :
    use_repurpose users email =
      (⟨false, some "Repurpose limit reached. Please upgrade!", none, none⟩, users) := by
  simp only [use_repurpose, h]
  rw [if_pos ⟨hl, hge⟩]

theorem use_repurpose_of_ok {users : Users} {email : String} {u : UserRec}
    (h : dget users email = some u)
    (hok : ¬(0 < u.repurposes_limit ∧ u.repurposes_limit ≤ u.repurposes_used)) :
    use_repurpose users email =
      (⟨true, none, some (u.repurposes_used + 1),
        some (if u.repurposes_limit > 0 then
                u.repurposes_limit - (u.repurposes_used + 1)
              else 999)⟩,
       dset users email { u with repurposes_used := u.repurposes_used + 1 }) := by
  simp only [use_repurpose, h]
  rw [if_neg hok]

/-- Starting from a zeroed counter under a positive cap `N`, after `k` calls
the stored counter is `min k N` (it climbs to the cap and stays there). -/
theorem iterUse_counter {users : Users} {email : String} {u : UserRec} {N : Nat}
    (hu : dget users email = some u) (h0 : u.repurposes_used = 0)
    (hN : u.repurposes_limit = (N : Int)) (hNpos : 0 < N) :
    ∀ k, dget (iterUse users email k) email =
      some { u with repurposes_used := ((min k N : Nat) : Int) } := by
  intro k
  induction k with
  | zero =>
      have h1 : ({ u with repurposes_used := ((min 0 N : Nat) : Int) }) = u := by
        rw [Nat.zero_min, Nat.cast_zero, ← h0]
      rw [h1]
      simpa [iterUse] using hu
  | succ k ih =>
      by_cases hk : k < N
      · have hmink : min k N = k := Nat.min_eq_left (Nat.le_of_lt hk)
        have hstep := use_repurpose_of_ok (u := { u with repurposes_used := ((min k N : Nat) : Int) }) ih
          (by
            simp only [hN, hmink]
            intro ⟨_, hge⟩
            exact absurd (Int.ofNat_le.mp hge) (Nat.not_le_of_lt hk))
        show dget (use_repurpose (iterUse users email k) email).2 email = _
        rw [hstep]
        simp only [dget_dset_self]
        have : ((min k N : Nat) : Int) + 1 = ((min (k + 1) N : Nat) : Int) := by
          rw [hmink, Nat.min_eq_left hk]
          push_cast
          ring
        rw [this]
      · have hNk : N ≤ k := Nat.le_of_not_lt hk
        have hmink : min k N = N := Nat.min_eq_right hNk
        have hstep := use_repurpose_of_quota (u := { u with repurposes_used := ((min k N : Nat) : Int) }) ih
          (by simp only [hN]; exact_mod_cast hNpos)
          (by simp only [hN, hmink]; exact le_rfl)
        show dget (use_repurpose (iterUse users email k) email).2 email = _
        rw [hstep]
        rw [show min (k + 1) N = min k N from by omega]
        exact ih

/-- With a non-positive cap (the `-1` "unlimited" sentinel or `0`), every call
succeeds and the counter just keeps climbing. -/
theorem iterUse_unlimited {users : Users} {email : String} {u : UserRec}
    (hu : dget users email = some u) (hl : u.repurposes_limit ≤ 0) :
    ∀ k, dget (iterUse users email k) email =
      some { u with repurposes_used := u.repurposes_used + (k : Int) } := by
  intro k
  induction k with
  | zero => simpa [iterUse] using hu
  | succ k ih =>
      have hstep := use_repurpose_of_ok
        (u := { u with repurposes_used := u.repurposes_used + (k : Int) }) ih
        (by intro ⟨hpos, _⟩; simp only at hpos; omega)
      show dget (use_repurpose (iterUse users email k) email).2 email = _
      rw [hstep]
      simp only [dget_dset_self]
      have : u.repurposes_used + (k : Int) + 1
           = u.repurposes_used + ((k + 1 : Nat) : Int) := by push_cast; ring
      rw [this]

/-! ## Claim theorems -/

/-- C1: from a zeroed counter under positive cap `N`, the first `N`
consecutive `use_repurpose` calls succeed, the `(N+1)`-th fails with the
quota-exceeded error, and the stored counter never exceeds `N`. -/
theorem consume_quota_exact (users : Users) (email : String) (u : UserRec)
    (N : Nat) (hu : dget users email = some u)
    (hN : u.repurposes_limit = (N : Int)) (h0 : u.repurposes_used = 0)
    (hNpos : 0 < N) :
    (∀ k, k < N → (use_repurpose (iterUse users email k) email).1.success = true) ∧
    (use_repurpose (iterUse users email N) email).1 =
      ⟨false, some "Repurpose limit reached. Please upgrade!", none, none⟩ ∧
    (∀ k u', dget (iterUse users email k) email = some u' →
      u'.repurposes_used ≤ (N : Int)) := by
  have hiter := iterUse_counter hu h0 hN hNpos
  refine ⟨?_, ?_, ?_⟩
  · intro k hk
    have hstep := use_repurpose_of_ok
      (u := { u with repurposes_used := ((min k N : Nat) : Int) }) (hiter k)
      (by
        simp only [hN, Nat.min_eq_left (Nat.le_of_lt hk)]
        intro ⟨_, hge⟩
        exact absurd (Int.ofNat_le.mp hge) (Nat.not_le_of_lt hk))
    rw [hstep]
  · have hstep := use_repurpose_of_quota
      (u := { u with repurposes_used := ((min N N : Nat) : Int) }) (hiter N)
      (by simp only [hN]; exact_mod_cast hNpos)
      (by simp only [hN, Nat.min_self]; exact le_rfl)
    rw [hstep]
  · intro k u' hu'
    rw [hiter k] at hu'
    cases hu'
    simp only
    exact_mod_cast Nat.min_le_right k N

/-- C1 witness: the quota theorem instantiated at a concrete free-tier user
with limit 5. -/
theorem consume_quota_exact_witness :
    (∀ k, k < 5 →
      (use_repurpose (iterUse sampleUsers "a@b.com" k) "a@b.com").1.success = true) ∧
    (use_repurpose (iterUse sampleUsers "a@b.com" 5) "a@b.com").1 =
      ⟨false, some "Repurpose limit reached. Please upgrade!", none, none⟩ ∧
    (∀ k u', dget (iterUse sampleUsers "a@b.com" k) "a@b.com" = some u' →
      u'.repurposes_used ≤ (5 : Int)) :=
  consume_quota_exact sampleUsers "a@b.com" sampleUser 5 (by decide)
    (by decide) (by decide) (by decide)

/-- C3: a failing `use_repurpose` call (unknown account or quota exceeded)
returns the user store exactly as it was. -/
theorem consume_failure_pure (users : Users) (email : String)
    (h : (use_repurpose users email).1.success = false) :
    (use_repurpose users email).2 = users := by
  match hm : dget users email with
  | none => rw [use_repurpose_of_absent hm]
  | some u =>
      by_cases hg : 0 < u.repurposes_limit ∧ u.repurposes_limit ≤ u.repurposes_used
      · rw [use_repurpose_of_quota hm hg.1 hg.2]
      · rw [use_repurpose_of_ok hm hg] at h
        simp at h

/-- C3 witness: a failing call on the empty store (unknown account) leaves it
empty. -/
theorem consume_failure_pure_witness :
    (use_repurpose [] "a@b.com").1.success = false ∧
    (use_repurpose [] "a@b.com").2 = [] :=
  ⟨by decide, consume_failure_pure [] "a@b.com" (by decide)⟩

theorem StoreInv_dset {users : Users} {k : String} {v : UserRec}
    (h : StoreInv users) (hv : Inv v) : StoreInv (dset users k v) := by
  intro e u he
  by_cases hek : e = k
  · subst hek
    rw [dget_dset_self] at he
    cases he
    exact hv
  · rw [dget_dset_ne users k e v hek] at he
    exact h e u he

/-- C2: the quota invariant holds of every record after `register` and is
preserved by `login`, `use_repurpose`, and `upgrade_plan`, from any store
satisfying it. -/
theorem quota_invariant_preserved (users : Users) (hinv : StoreInv users) :
    (∀ email password name now,
      StoreInv (register users email password name now).2) ∧
    (∀ sessions email password now token,
      StoreInv (login users sessions email password now token).2.1) ∧
    (∀ email, StoreInv (use_repurpose users email).2) ∧
    (∀ email plan, StoreInv (upgrade_plan users email plan).2) := by
  refine ⟨?_, ?_, ?_, ?_⟩
  · intro email password name now
    by_cases h1 : normEmail email = "" ∨ ¬ pyContains (normEmail email) '@'
    · simp only [register, if_pos h1]
      exact hinv
    · by_cases h2 : pyLen password < 6
      · simp only [register, if_neg h1, if_pos h2]
        exact hinv
      · cases hm : dget users (normEmail email) with
        | some u =>
            simp only [register, if_neg h1, if_neg h2, hm]
            exact hinv
        | none =>
            simp only [register, if_neg h1, if_neg h2, hm]
            exact StoreInv_dset hinv (by intro _; norm_num [FREE_REPURPOSES])
  · intro sessions email password now token
    cases hm : dget users (normEmail email) with
    | none =>
        simp only [login, hm]
        exact hinv
    | some u =>
        by_cases hpw : u.password ≠ hash_password password
        · simp only [login, hm, if_pos hpw]
          exact hinv
        · simp only [login, hm, if_neg hpw]
          exact StoreInv_dset hinv (hinv _ u hm)
  · intro email
    cases hm : dget users email with
    | none => rw [(use_repurpose_of_absent hm : _ = _)]; exact hinv
    | some u =>
        by_cases hg : 0 < u.repurposes_limit ∧ u.repurposes_limit ≤ u.repurposes_used
        · rw [(use_repurpose_of_quota hm hg.1 hg.2 : _ = _)]
          exact hinv
        · rw [(use_repurpose_of_ok hm hg : _ = _)]
          refine StoreInv_dset hinv ?_
          intro hpos
          simp only at hpos ⊢
          omega
  · intro email plan
    cases hm : dget users email with
    | none =>
        simp only [upgrade_plan, hm]
        exact hinv
    | some u =>
        cases hp : planLimit plan with
        | none =>
            simp only [upgrade_plan, hm, hp]
            exact hinv
        | some lim =>
            simp only [upgrade_plan, hm, hp]
            refine StoreInv_dset hinv ?_
            intro hpos
            simp only at hpos ⊢
            omega

/-- C2 witness: the invariant machinery instantiated at the empty store
(vacuously invariant). -/
theorem quota_invariant_preserved_witness :
    (∀ email password name now,
      StoreInv (register [] email password name now).2) ∧
    (∀ sessions email password now token,
      StoreInv (login [] sessions email password now token).2.1) ∧
    (∀ email, StoreInv (use_repurpose [] email).2) ∧
    (∀ email plan, StoreInv (upgrade_plan [] email plan).2) :=
  quota_invariant_preserved []
    (by intro e u h; simp [dget] at h)

/-- C6: an unknown-email login and a known-email wrong-password login return
the very same outcome dict (same flag, same generic message, no token and no
user fields), for any store and any inputs. -/
theorem login_enumeration_indistinct (users : Users)
    (sessions1 sessions2 : Sessions) (e1 p1 e2 p2 : String)
    (now1 now2 : Nat) (tok1 tok2 : String) (u : UserRec)
    (h1 : dget users (normEmail e1) = none)
    (h2 : dget users (normEmail e2) = some u)
    (h3 : u.password ≠ hash_password p2) :
    (login users sessions1 e1 p1 now1 tok1).1 =
      (login users sessions2 e2 p2 now2 tok2).1 := by
  simp only [login, h1, h2, if_pos h3]

/-- C6 witness: unknown `x@y.com` and known `a@b.com` with a wrong password
yield identical login outcomes. -/
theorem login_enumeration_indistinct_witness :
    (login oddUsers [] "x@y.com" "pw1" 1 "t1").1 =
      (login oddUsers [] "a@b.com" "pw2" 2 "t2").1 :=
  login_enumeration_indistinct oddUsers [] [] "x@y.com" "pw1" "a@b.com" "pw2"
    1 2 "t1" "t2" oddUser (by decide) (by decide) (by decide)

/-- C8: `upgrade_plan(email, "unlimited")` succeeds, stores the `-1` sentinel
with a zeroed counter, and afterwards every `use_repurpose` call for that
email succeeds (in particular any run of 1000 consecutive calls), none with
the quota error. -/
theorem unlimited_never_fails (users : Users) (email : String) (u : UserRec)
    (hu : dget users email = some u) :
    (upgrade_plan users email "unlimited").1 = ⟨true, none, some "unlimited"⟩ ∧
    dget (upgrade_plan users email "unlimited").2 email =
      some { u with plan := "unlimited", repurposes_limit := -1,
                    repurposes_used := 0 } ∧
    ∀ k, (use_repurpose
            (iterUse (upgrade_plan users email "unlimited").2 email k)
            email).1.success = true ∧
         (use_repurpose
            (iterUse (upgrade_plan users email "unlimited").2 email k)
            email).1.error = none := by
  have hpl : planLimit "unlimited" = some (-1) := by decide
  have hup : upgrade_plan users email "unlimited" =
      (⟨true, none, some "unlimited"⟩,
       dset users email
         { u with plan := "unlimited", repurposes_limit := -1,
                  repurposes_used := 0 }) := by
    simp only [upgrade_plan, hu, hpl]
  refine ⟨by rw [hup], by rw [hup]; exact dget_dset_self _ _ _, ?_⟩
  intro k
  have hu' : dget (upgrade_plan users email "unlimited").2 email =
      some { u with plan := "unlimited", repurposes_limit := -1,
                    repurposes_used := 0 } := by
    rw [hup]
    exact dget_dset_self _ _ _
  have hiter := iterUse_unlimited hu' (by norm_num) k
  have hstep := use_repurpose_of_ok hiter
    (by intro ⟨hpos, _⟩; simp only at hpos; omega)
  rw [hstep]
  exact ⟨rfl, rfl⟩

/-- C8 witness: the unlimited-plan theorem at the concrete sample user. -/
theorem unlimited_never_fails_witness :
    (upgrade_plan sampleUsers "a@b.com" "unlimited").1 =
      ⟨true, none, some "unlimited"⟩ ∧
    dget (upgrade_plan sampleUsers "a@b.com" "unlimited").2 "a@b.com" =
      some { sampleUser with plan := "unlimited", repurposes_limit := -1,
                             repurposes_used := 0 } ∧
    ∀ k, (use_repurpose
            (iterUse (upgrade_plan sampleUsers "a@b.com" "unlimited").2
              "a@b.com" k) "a@b.com").1.success = true ∧
         (use_repurpose
            (iterUse (upgrade_plan sampleUsers "a@b.com" "unlimited").2
              "a@b.com" k) "a@b.com").1.error = none :=
  unlimited_never_fails sampleUsers "a@b.com" sampleUser (by decide)

/-- C9: `upgrade_plan` with an unknown email fails with the account error and
leaves the store untouched, for every plan id — the account check precedes
plan validation, so even an unknown plan yields "User not found", not
"Invalid plan". -/
theorem upgrade_unknown_account (users : Users) (email plan : String)
    (h : dget users email = none) :
    upgrade_plan users email plan =
      (⟨false, some "User not found", none⟩, users) := by
  unfold upgrade_plan
  rw [h]

/-- C9 witness: an unknown email together with an unknown plan id still
yields the account error. -/
theorem upgrade_unknown_account_witness :
    planLimit "gibberish" = none ∧
    upgrade_plan [] "x@y.com" "gibberish" =
      (⟨false, some "User not found", none⟩, []) :=
  ⟨by decide, upgrade_unknown_account [] "x@y.com" "gibberish" (by decide)⟩

/-- C10: a valid registration stores, as display name, the part of the
normalized email before the first `@` when the supplied name is empty, and
the supplied name verbatim otherwise. -/
theorem register_name_default (users : Users) (email password name : String)
    (now : Nat)
    (he : normEmail email ≠ "")
    (ha : pyContains (normEmail email) '@' = true)
    (hp : ¬ pyLen password < 6)
    (hnew : dget users (normEmail email) = none) :
    (register users email password name now).1.success = true ∧
    ∀ u, dget (register users email password name now).2
           (normEmail email) = some u →
      (name = "" → u.name = localPart (normEmail email)) ∧
      (name ≠ "" → u.name = name) := by
  have h1 : ¬ (normEmail email = "" ∨ ¬ pyContains (normEmail email) '@') := by
    simp [he, ha]
  simp only [register, if_neg h1, if_neg hp, hnew]
  refine ⟨trivial, ?_⟩
  intro u hu
  rw [dget_dset_self] at hu
  cases hu
  by_cases hname : name = ""
  · simp [hname]
  · simp [hname]

/-- C10 witness: registering `Bob@Example.com ` with an empty name stores the
local part `bob` of the normalized email. -/
theorem register_name_default_witness :
    (register [] "Bob@Example.com " "secret1" "" 0).1.success = true ∧
    ∀ u, dget (register [] "Bob@Example.com " "secret1" "" 0).2
           (normEmail "Bob@Example.com ") = some u →
      ("" = "" → u.name = localPart (normEmail "Bob@Example.com ")) ∧
      ("" ≠ "" → u.name = "") :=
  register_name_default [] "Bob@Example.com " "secret1" "" 0 (by decide)
    (by decide) (by decide) (by decide)

/-- C4 (amended): a session resolves iff its token is present and
`now ≤ expires_at` (the code's expiry test is the strict `expires_at < now`,
so a session is still honoured at the exact instant `now = expires_at`);
when the token is present and `expires_at < now` the record is deleted
(absent from subsequent lookups) and no session is returned. -/
theorem resolve_session_boundary (sessions : Sessions) (users : Users)
    (tok : String) (now : Nat) (htok : tok ≠ "") :
    (dget sessions tok = none →
      get_user_from_session sessions users tok now = (none, sessions)) ∧
    (∀ s, dget sessions tok = some s → s.expires_at < now →
      (get_user_from_session sessions users tok now).1 = none ∧
      (get_user_from_session sessions users tok now).2 = ddel sessions tok ∧
      dget (get_user_from_session sessions users tok now).2 tok = none) ∧
    (∀ s, dget sessions tok = some s → now ≤ s.expires_at →
      (get_user_from_session sessions users tok now).2 = sessions ∧
      ∀ u, dget users s.email = some u →
        (get_user_from_session sessions users tok now).1 =
          some ⟨s.email, u.name, u.plan, u.repurposes_used,
                u.repurposes_limit,
                if u.repurposes_limit > 0 then
                  u.repurposes_limit - u.repurposes_used
                else 999⟩) := by
  refine ⟨?_, ?_, ?_⟩
  · intro h
    simp only [get_user_from_session, if_neg htok, h]
  · intro s hs hexp
    have hlt : s.expires_at < now := hexp
    refine ⟨?_, ?_, ?_⟩ <;>
      simp only [get_user_from_session, if_neg htok, hs, if_pos hlt,
        dget_ddel_self]
  · intro s hs hle
    have hnlt : ¬ s.expires_at < now := Nat.not_lt.mpr hle
    constructor
    · cases hu : dget users s.email with
      | none => simp only [get_user_from_session, if_neg htok, hs,
          if_neg hnlt, hu]
      | some u => simp only [get_user_from_session, if_neg htok, hs,
          if_neg hnlt, hu]
    · intro u hu
      simp only [get_user_from_session, if_neg htok, hs, if_neg hnlt, hu]

/-- C4 witness: the resolve theorem instantiated at the concrete session
store, exercised below the boundary (`now = 100 ≤ expires_at = 100`) via its
third conjunct and at `now = 101` via the second. -/
theorem resolve_session_boundary_witness :
    (dget sampleSessions "tok1" = none →
      get_user_from_session sampleSessions sampleUsers "tok1" 101 =
        (none, sampleSessions)) ∧
    (∀ s, dget sampleSessions "tok1" = some s → s.expires_at < 101 →
      (get_user_from_session sampleSessions sampleUsers "tok1" 101).1 = none ∧
      (get_user_from_session sampleSessions sampleUsers "tok1" 101).2 =
        ddel sampleSessions "tok1" ∧
      dget (get_user_from_session sampleSessions sampleUsers "tok1" 101).2
        "tok1" = none) ∧
    (∀ s, dget sampleSessions "tok1" = some s → 101 ≤ s.expires_at →
      (get_user_from_session sampleSessions sampleUsers "tok1" 101).2 =
        sampleSessions ∧
      ∀ u, dget sampleUsers s.email = some u →
        (get_user_from_session sampleSessions sampleUsers "tok1" 101).1 =
          some ⟨s.email, u.name, u.plan, u.repurposes_used,
                u.repurposes_limit,
                if u.repurposes_limit > 0 then
                  u.repurposes_limit - u.repurposes_used
                else 999⟩) :=
  resolve_session_boundary sampleSessions sampleUsers "tok1" 101
    (by decide)

/-- C4 counterexample: at the exact expiry instant (`now = expires_at = 100`)
the claim says the session is invalid, is deleted and resolves to nothing;
the code still resolves it and leaves the store untouched. -/
theorem resolve_session_boundary_cex :
    (get_user_from_session sampleSessions sampleUsers "tok1" 100).1 ≠ none ∧
    (get_user_from_session sampleSessions sampleUsers "tok1" 100).2 =
      sampleSessions := by
  exact ⟨by decide, by decide⟩

/-! ## C5 — the example scenario -/

/-- C5 counterexample: the scenario as claimed is false on the code in two
places: the login with the untrimmed password `" secret1"` fails (only the
email is normalized; the password is hashed verbatim, and
`sha256(" secret1" + salt) ≠ sha256("secret1" + salt)`), and the 5th of 5
consecutive `ConsumeCredit` calls still succeeds (the free limit is 5 and
the counter starts at 0, so only the 6th call fails). -/
theorem example_scenario_cex :
    (login usersR [] "A@B.COM " " secret1" 20 "tok1").1.success = false ∧
    (use_repurpose (iterUse usersR "a@b.com" 4) "a@b.com").1.success = true := by
  exact ⟨by decide, by decide⟩

/-- C5 (amended): `Register("a@b.com","secret1","Ana")` succeeds;
`Login("A@B.COM ", "secret1")` succeeds (email normalization; the password
is compared verbatim); the first 5 `ConsumeCredit` calls succeed and the
6th fails with the quota error; `ChangePlan("a@b.com","starter")` then
succeeds leaving `repurposes_limit = 50` and `repurposes_used = 0`. -/
theorem example_scenario_amended :
    (register [] "a@b.com" "secret1" "Ana" 10).1.success = true ∧
    (login usersR [] "A@B.COM " "secret1" 20 "tok1").1.success = true ∧
    (∀ k, k < 5 →
      (use_repurpose (iterUse usersL "a@b.com" k) "a@b.com").1.success = true) ∧
    (use_repurpose (iterUse usersL "a@b.com" 5) "a@b.com").1 =
      ⟨false, some "Repurpose limit reached. Please upgrade!", none, none⟩ ∧
    (upgrade_plan (iterUse usersL "a@b.com" 6) "a@b.com" "starter").1.success
      = true ∧
    (dget (upgrade_plan (iterUse usersL "a@b.com" 6) "a@b.com" "starter").2
        "a@b.com").map (fun u => (u.repurposes_limit, u.repurposes_used)) =
      some (50, 0) := by
  refine ⟨by decide, by decide, by decide, by decide, by decide, by decide⟩

/-! ## Lemmas for the gateway normalization -/

theorem splitNL_ne_nil (l : List Char) : splitNL l ≠ [] := by
  cases l with
  | nil => simp [splitNL]
  | cons c rest =>
      by_cases h : c = '\n'
      · simp [splitNL, h]
      · simp only [splitNL, if_neg h]
        cases splitNL rest <;> simp

theorem splitNL_append (q zs : List Char) :
    splitNL (q ++ '\n' :: zs) = splitNL q ++ splitNL zs := by
  induction q with
  | nil => simp [splitNL]
  | cons c q' ih =>
      by_cases h : c = '\n'
      · simp [splitNL, h, ih]
      · simp only [List.cons_append, splitNL, if_neg h]
        have ih' : splitNL (q'.append ('\n' :: zs)) = splitNL q' ++ splitNL zs := ih
        rw [ih']
        cases hq : splitNL q' with
        | nil => exact absurd hq (splitNL_ne_nil q')
        | cons x t => simp [hq]

theorem joinNL_cons_cons (c : Char) (h : List Char) (t : List (List Char)) :
    joinNL ((c :: h) :: t) = c :: joinNL (h :: t) := by
  cases t <;> simp [joinNL]

theorem joinNL_splitNL (l : List Char) : joinNL (splitNL l) = l := by
  induction l with
  | nil => simp [splitNL, joinNL]
  | cons c rest ih =>
      by_cases h : c = '\n'
      · subst h
        simp only [splitNL, if_pos rfl]
        cases hr : splitNL rest with
        | nil => exact absurd hr (splitNL_ne_nil rest)
        | cons x t =>
            rw [hr] at ih
            simp [joinNL, ih]
      · simp only [splitNL, if_neg h]
        cases hr : splitNL rest with
        | nil => exact absurd hr (splitNL_ne_nil rest)
        | cons x t =>
            rw [hr] at ih
            rw [joinNL_cons_cons, ih]

theorem getLast?_concat' {α : Type} (l : List α) (a : α) :
    (l ++ [a]).getLast? = some a := by
  simp

theorem dropLast_concat' {α : Type} (l : List α) (a : α) :
    (l ++ [a]).dropLast = l := by
  simp

/-- The fence-stripping step undoes `wrapFence` exactly. -/
theorem fenceStep_wrapFence (p : List Char) :
    fenceStep (wrapFence p) = p := by
  have hsplit : splitNL (wrapFence p) =
      [fenceJson] ++ splitNL p ++ [fence3] := by
    have h1 : wrapFence p = fenceJson ++ '\n' :: (p ++ '\n' :: fence3) := by
      simp [wrapFence]
    have e1 : splitNL fenceJson = [fenceJson] := by decide
    have e2 : splitNL fence3 = [fence3] := by decide
    rw [h1, splitNL_append, splitNL_append, e1, e2]
    simp
  have hpre : fence3.isPrefixOf (wrapFence p) = true := by
    simp [wrapFence, fenceJson, fence3, List.isPrefixOf]
  have hlast : (splitNL (wrapFence p)).getLast? = some fence3 := by
    rw [hsplit, List.append_assoc, List.singleton_append]
    rw [show (fenceJson :: (splitNL p ++ [fence3])) =
      ((fenceJson :: splitNL p) ++ [fence3]) from by simp]
    exact getLast?_concat' _ _
  rw [fenceStep, if_pos hpre, if_pos hlast, hsplit]
  rw [List.append_assoc, List.singleton_append, List.drop_one,
    List.tail_cons, dropLast_concat']
  exact joinNL_splitNL p

/-- C7 (amended): for every payload already stripped of surrounding
whitespace and not itself beginning with a fence marker, normalizing the
payload wrapped in a fenced block with a leading `json` language tag yields
exactly the same string as normalizing the bare payload — so structural
parsing of the two coincides. -/
theorem clean_roundtrip (p : List Char) (hs : listStrip p = p)
    (hf : fence3.isPrefixOf p = false) :
    cleanResponse (wrapFence p) = cleanResponse p := by
  have hstrip : listStrip (wrapFence p) = wrapFence p := by
    unfold listStrip
    have h1 : (wrapFence p).dropWhile Char.isWhitespace = wrapFence p := by
      simp [wrapFence, fenceJson, List.dropWhile]
    have h2 : (wrapFence p).reverse.dropWhile Char.isWhitespace =
        (wrapFence p).reverse := by
      have hrev : (wrapFence p).reverse =
          '`' :: '`' :: '`' :: '\n' :: (fenceJson ++ ['\n'] ++ p).reverse := by
        show (((fenceJson ++ ['\n']) ++ p) ++ ('\n' :: fence3)).reverse = _
        rw [List.reverse_append]
        rfl
      rw [hrev]
      simp [List.dropWhile]
    rw [h1, h2, List.reverse_reverse]
  show trailStep (jsonStep (fenceStep (listStrip (wrapFence p)))) = _
  rw [hstrip, fenceStep_wrapFence]
  show _ = trailStep (jsonStep (fenceStep (listStrip p)))
  rw [hs, fenceStep, hf]
  simp

/-- C7 witness: the round-trip theorem at the concrete payload `[1, 2]`. -/
theorem clean_roundtrip_witness :
    cleanResponse (wrapFence ("[1, 2]".toList)) =
      cleanResponse ("[1, 2]".toList) :=
  clean_roundtrip ("[1, 2]".toList) (by decide) (by decide)

/-- C7 counterexample: the round-trip fails for arbitrary payload strings.
For `" json 0"` (leading whitespace before a `json` prefix) the unwrapped
normalization yields the parseable `"0"` while the wrapped one yields
`" json 0"`; for a payload that is itself a fenced block the unwrapped
normalization yields `"0"` while the wrapped one yields the unparseable
`"```json\n0"`. -/
theorem clean_roundtrip_cex :
    cleanResponse (wrapFence (" json 0".toList)) = " json 0".toList ∧
    cleanResponse (" json 0".toList) = "0".toList ∧
    cleanResponse (wrapFence ("```json\n0\n```".toList)) =
      "```json\n0".toList ∧
    cleanResponse ("```json\n0\n```".toList) = "0".toList := by
  refine ⟨by decide, by decide, by decide, by decide⟩

end ContentBlast

